import Mathlib

/-
  Verification development for the orchestration engine of the exa-code-cli
  repository. The definitions below are a shallow embedding of the agent
  loop in src/core/agent.ts (Agent.chat, Agent.executeToolCall,
  Agent.interrupt, Agent.clearHistory, Agent.switchProvider) together with
  src/tools/validators.ts (validateReadBeforeEdit, getReadBeforeEditError).
  External collaborators (the LLM provider, the concrete tool
  implementations, the approval UI, JSON parsing, path resolution and the
  DANGEROUS_TOOLS / APPROVAL_REQUIRED_TOOLS name lists from
  tool-schemas.ts) are modelled as an environment of oracles consumed by
  the engine, so every theorem quantifies over them.
-/

namespace ExaAgent

/-- Roles of conversation messages, from the Message interface in agent.ts. -/
inductive Role : Type
  | system
  | user
  | assistant
  | tool
deriving DecidableEq

instance : BEq Role := ⟨fun a b => decide (a = b)⟩

/-- One tool call request returned by the backend
    (OpenAI-style: id, function.name, function.arguments). -/
structure ToolCallReq : Type where
  id : String
  name : String
  arguments : String
deriving DecidableEq

/-- One conversation log entry, mirroring the Message interface of agent.ts.
    An empty tool_calls list models an absent tool_calls field. -/
structure Message : Type where
  role : Role
  content : String
  tool_calls : List ToolCallReq := []
  tool_call_id : Option String := none
deriving DecidableEq

/-- The structured result of a tool execution, with the fields the agent
    loop inspects (success, error, userRejected). -/
structure ToolResult : Type where
  success : Bool
  error : Option String := none
  userRejected : Bool := false
deriving DecidableEq

/-- Answer of the interactive approval callback onToolApproval. -/
structure ApprovalResult : Type where
  approved : Bool
  autoApproveSession : Bool := false
deriving DecidableEq

/-- The view of parsed tool arguments the agent loop inspects
    (only the file_path field is read by Agent.executeToolCall). -/
structure ToolArgs : Type where
  file_path : Option String := none
deriving DecidableEq

/-- A successful backend reply: free text, optional reasoning, tool calls. -/
structure ChatResponse : Type where
  content : String := ""
  reasoning : Option String := none
  toolCalls : List ToolCallReq := []
deriving DecidableEq

/-- A thrown JavaScript Error value: message and name. -/
structure ErrVal : Type where
  message : String
  name : String := "Error"
deriving DecidableEq

/-- Outcome of one provider.chat call. -/
inductive BackendOutcome : Type
  | success (r : ChatResponse)
  | failure (e : ErrVal)
deriving DecidableEq

/-- Boolean list-prefix test on character lists (model of String.startsWith). -/
def preChars : List Char → List Char → Bool
  | [], _ => true
  | _ :: _, [] => false
  | a :: as, b :: bs => a == b && preChars as bs

/-- Substring occurrence test on character lists (model of
    JavaScript String.prototype.includes). -/
def subChars (pat : List Char) : List Char → Bool
  | [] => preChars pat []
  | c :: cs => preChars pat (c :: cs) || subChars pat cs

/-- Model of JavaScript s.includes(pat). -/
def strHas (s pat : String) : Bool := subChars pat.data s.data

/-- Model of JavaScript s.startsWith(pre). -/
def strStarts (s pre : String) : Bool := preChars pre.data s.data

/-- The abort-error test of Agent.chat (agent.ts lines 546-550). -/
def isAbortError (e : ErrVal) : Bool :=
  strHas e.message "Request was aborted" ||
    strHas e.message "The operation was aborted" ||
    e.name == "AbortError"

/-- The authentication-error test of Agent.chat (agent.ts line 569). -/
def isAuthError (e : ErrVal) : Bool :=
  strHas e.message "401" || strHas e.message "invalid API key" ||
    strHas e.message "authentication"

/-- JavaScript truthiness of a string. -/
def jsTruthyStr (s : String) : Bool := s != ""

/-- JavaScript truthiness of an optional string. -/
def jsTruthyOpt : Option String → Bool
  | none => false
  | some s => s != ""

/-- Mutable fields of the Agent instance that the agent loop reads or
    writes, together with the read-files tracker of validators.ts.
    readFiles = none models a session where setReadFilesTracker was never
    called (tracking disabled). -/
structure AgentState : Type where
  messages : List Message
  sessionAutoApprove : Bool := false
  isInterrupted : Bool := false
  requestCount : Nat := 0
  currentProviderType : String := "groq"
  readFiles : Option (List String) := none
deriving DecidableEq

/-- Observable callback and collaborator invocations emitted by a run,
    in order. -/
inductive Event : Type
  | backendCall
  | thinking (content : String) (reasoning : Option String)
  | toolStart (name : String)
  | toolEnd (name : String) (r : ToolResult)
  | approvalRequest (name : String)
  | toolExec (name : String)
  | finalMessage (content : String) (reasoning : Option String)
  | errorCb (msg : String)
  | maxIterCb (bound : Nat)
  | interruptInvoked
deriving DecidableEq

/-- The environment of external collaborators: scripted oracles for the
    backend, the tool implementations, the approval UI, the retry and
    max-iterations callbacks, the number of interrupt() invocations that
    occur during each successive await point, JSON argument parsing, path
    resolution, and the two tool-classification name lists from
    tool-schemas.ts. -/
structure Env : Type where
  backend : Nat → BackendOutcome
  toolImpl : Nat → Sum String ToolResult
  approval : Nat → ApprovalResult
  errAnswer : Nat → Bool
  maxIterAnswer : Nat → Bool
  interruptsAt : Nat → Nat
  hasApprovalCb : Bool := true
  hasErrorCb : Bool := true
  hasMaxIterCb : Bool := true
  parseArgs : String → Option ToolArgs
  resolvePath : String → String
  dangerousTools : List String := []
  approvalRequiredTools : List String := []

/-- A configuration of a running chat: agent state, the emitted event
    trace, and consumption counters for each oracle of the environment. -/
structure Cfg : Type where
  st : AgentState
  trace : List Event := []
  backendIdx : Nat := 0
  toolIdx : Nat := 0
  apprIdx : Nat := 0
  errIdx : Nat := 0
  maxIdx : Nat := 0
  awaitIdx : Nat := 0
deriving DecidableEq

/-- Append one message to the conversation log. -/
def pushMsg (m : Message) (c : Cfg) : Cfg :=
  { c with st := { c.st with messages := c.st.messages ++ [m] } }

/-- Record one observable event. -/
def addEvent (e : Event) (c : Cfg) : Cfg := { c with trace := c.trace ++ [e] }

/-- The system turn appended by Agent.interrupt (agent.ts lines 402-405). -/
def interruptionMsg : Message :=
  { role := Role.system, content := "User has interrupted the request." }

/-- Model of one invocation of Agent.interrupt: set the flag, signal the
    abort controller (implicit: the backend oracle may answer with an abort
    error), and append the interruption system turn. -/
def doInterrupt (c : Cfg) : Cfg :=
  addEvent Event.interruptInvoked
    { c with st := { c.st with isInterrupted := true,
                               messages := c.st.messages ++ [interruptionMsg] } }

/-- Apply n interrupt() invocations. -/
def doInterrupts : Nat → Cfg → Cfg
  | 0, c => c
  | n + 1, c => doInterrupts n (doInterrupt c)

/-- An await suspension point: the scheduled number of interrupt()
    invocations for this await fire while the engine is suspended. -/
def awaitPoint (env : Env) (c : Cfg) : Cfg :=
  doInterrupts (env.interruptsAt c.awaitIdx) { c with awaitIdx := c.awaitIdx + 1 }

/-- Render of a boolean for the JSON.stringify model. -/
def encodeBool : Bool → String
  | true => "true"
  | false => "false"

/-- Render of an optional string for the JSON.stringify model. -/
def encodeOptStr : Option String → String
  | none => "null"
  | some s => "str:" ++ s

/-- Model of JSON.stringify(result) used for the content of tool turns. -/
def encodeToolResult (r : ToolResult) : String :=
  "result(success=" ++ encodeBool r.success ++ ",error=" ++ encodeOptStr r.error ++
    ",userRejected=" ++ encodeBool r.userRejected ++ ")"

/-- The tool turn appended for one tool call result
    (agent.ts lines 497-501). -/
def toolTurnMsg (tc : ToolCallReq) (r : ToolResult) : Message :=
  { role := Role.tool, content := encodeToolResult r, tool_call_id := some tc.id }

/-- An apostrophe character, kept out of string literals. -/
def apos : String := String.singleton (Char.ofNat 39)

/-- Content of the system note appended after a user rejection
    (agent.ts lines 506-509); it interpolates the unstripped tool name. -/
def rejNoteContent (name : String) : String :=
  "The user rejected the " ++ name ++
    " tool execution. The response has been terminated. Please wait for the user" ++
    apos ++ "s next instruction."

/-- The system note turn appended after a user rejection. -/
def rejNoteMsg (name : String) : Message :=
  { role := Role.system, content := rejNoteContent name }

/-- Recognizer for the rejection system note. -/
def isRejNote (m : Message) : Bool :=
  m.role == Role.system && strStarts m.content "The user rejected the "

/-- Model of validateReadBeforeEdit from validators.ts: with no tracker,
    every edit is allowed; otherwise the resolved path must have been
    recorded as read. -/
def validateReadBeforeEdit (env : Env) (s : AgentState) (fp : String) : Bool :=
  match s.readFiles with
  | none => true
  | some l => l.contains (env.resolvePath fp)

/-- Model of getReadBeforeEditError from validators.ts. -/
def getReadBeforeEditError (fp : String) : String :=
  "File must be read before editing. Use read_file tool first: " ++ fp

/-- The characters of the literal prefix stripped by Agent.executeToolCall. -/
def repoChars : List Char := "repo_browser.".data

/-- Model of the prefix strip at agent.ts lines 630-633: remove one leading
    occurrence of the string repo_browser. from the tool name. -/
def stripRepo (s : String) : String :=
  if preChars repoChars s.data then { data := s.data.drop 13 } else s

/-- Result returned when the tool arguments do not parse
    (agent.ts lines 640-643). -/
def truncatedArgsResult : ToolResult :=
  { success := false, error := some "Tool arguments truncated", userRejected := false }

/-- Result returned when an interruption is observed around the approval
    wait (agent.ts lines 677 and 688). -/
def interruptedToolResult : ToolResult :=
  { success := false, error := some "Tool execution interrupted by user",
    userRejected := true }

/-- Result returned when approval is denied (agent.ts line 705). -/
def canceledToolResult : ToolResult :=
  { success := false, error := some "Tool execution canceled by user",
    userRejected := true }

/-- The structured error result of a failed read-before-edit precondition. -/
def editRejectResult (fp : String) : ToolResult :=
  { success := false, error := some (getReadBeforeEditError fp), userRejected := false }

/-- Dispatch to the concrete tool implementation (agent.ts line 714),
    wrapping a thrown error per the surrounding catch (line 725). A throw
    skips the onToolEnd notification. -/
def runToolImpl (env : Env) (c : Cfg) (toolName : String) : ToolResult × Cfg :=
  let c1 := awaitPoint env (addEvent (Event.toolExec toolName) c)
  match env.toolImpl c1.toolIdx with
  | Sum.inl msg =>
      ({ success := false, error := some ("Tool execution error: " ++ msg),
         userRejected := false },
       { c1 with toolIdx := c1.toolIdx + 1 })
  | Sum.inr r =>
      (r, addEvent (Event.toolEnd toolName r) { c1 with toolIdx := c1.toolIdx + 1 })

/-- The approval gate and execution part of Agent.executeToolCall
    (agent.ts lines 663-721): classification against the dangerous and
    approval-required lists, session auto-approval, the interactive gate
    with its two interruption re-checks, the session-flag update, and
    finally tool dispatch. -/
def toolGateAndRun (env : Env) (c : Cfg) (toolName : String) : ToolResult × Cfg :=
  let isDangerous := env.dangerousTools.contains toolName
  let requiresApproval := env.approvalRequiredTools.contains toolName
  let needsApproval := isDangerous || requiresApproval
  let canAutoApprove := requiresApproval && !isDangerous && c.st.sessionAutoApprove
  if needsApproval && !canAutoApprove then
    if env.hasApprovalCb then
      if c.st.isInterrupted then
        (interruptedToolResult,
         addEvent (Event.toolEnd toolName interruptedToolResult) c)
      else
        let c1 := awaitPoint env (addEvent (Event.approvalRequest toolName) c)
        let ar := env.approval c1.apprIdx
        let c2 := { c1 with apprIdx := c1.apprIdx + 1 }
        if c2.st.isInterrupted then
          (interruptedToolResult,
           addEvent (Event.toolEnd toolName interruptedToolResult) c2)
        else
          let c3 :=
            if ar.autoApproveSession && requiresApproval && !isDangerous then
              { c2 with st := { c2.st with sessionAutoApprove := true } }
            else c2
          if !ar.approved then
            (canceledToolResult,
             addEvent (Event.toolEnd toolName canceledToolResult) c3)
          else runToolImpl env c3 toolName
    else
      (canceledToolResult, addEvent (Event.toolEnd toolName canceledToolResult) c)
  else runToolImpl env c toolName

/-- Model of Agent.executeToolCall (agent.ts lines 627-727): strip the
    repo_browser. prefix, parse arguments, notify tool start, enforce the
    read-before-edit precondition for edit_file, then gate and run. -/
def executeToolCall (env : Env) (c : Cfg) (tc : ToolCallReq) : ToolResult × Cfg :=
  let toolName := stripRepo tc.name
  match env.parseArgs tc.arguments with
  | none => (truncatedArgsResult, c)
  | some args =>
    let c1 := addEvent (Event.toolStart toolName) c
    let badEdit : Option String :=
      if toolName == "edit_file" then
        match args.file_path with
        | some fp =>
            if fp == "" then none
            else if validateReadBeforeEdit env c1.st fp then none else some fp
        | none => none
      else none
    match badEdit with
    | some fp =>
        (editRejectResult fp,
         addEvent (Event.toolEnd toolName (editRejectResult fp)) c1)
    | none => toolGateAndRun env c1 toolName

/-- Result of the per-iteration tool-call loop of Agent.chat. -/
inductive ToolLoopRes : Type
  | completed
  | rejected
  | interruptedStop
deriving DecidableEq

/-- The tool-call loop of Agent.chat (agent.ts lines 486-512): check the
    interruption flag before each call, execute it, append its tool turn
    (rejected and failed calls included), and on a userRejected result
    append the rejection system note and stop. -/
def runToolCalls (env : Env) : List ToolCallReq → Cfg → ToolLoopRes × Cfg
  | [], c => (ToolLoopRes.completed, c)
  | tc :: rest, c =>
    if c.st.isInterrupted then (ToolLoopRes.interruptedStop, c)
    else
      match executeToolCall env c tc with
      | (r, c1) =>
        let c2 := pushMsg (toolTurnMsg tc r) c1
        if r.userRejected then
          (ToolLoopRes.rejected, pushMsg (rejNoteMsg tc.name) c2)
        else runToolCalls env rest c2

/-- The loop bound of Agent.chat (agent.ts line 420). -/
def maxIterations : Nat := 50

/-- How one chat run ends: normal return, a thrown error, or exhaustion of
    the step fuel of the model (never reached for adequate fuel). -/
inductive ChatExit : Type
  | done
  | threw (msg : String)
  | fuelOut
deriving DecidableEq

/-- Issue one backend call: bump requestCount, record the call, suspend. -/
def backendStep (env : Env) (c : Cfg) : Cfg :=
  awaitPoint env
    (addEvent Event.backendCall
      { c with st := { c.st with requestCount := c.st.requestCount + 1 } })

/-- Configuration after the backend call returns: the outcome oracle index
    has been consumed. -/
def afterBackend (env : Env) (c : Cfg) : Cfg :=
  let c1 := backendStep env c
  { c1 with backendIdx := c1.backendIdx + 1 }

/-- Processing of a backend response that carries tool calls, up to the
    tool loop (agent.ts lines 470-483): the thinking callback when free
    text or reasoning accompanies the calls, then the assistant turn
    carrying all requested calls. -/
def afterAssistant (resp : ChatResponse) (c : Cfg) : Cfg :=
  let c1 :=
    if jsTruthyStr resp.content || jsTruthyOpt resp.reasoning then
      addEvent (Event.thinking resp.content resp.reasoning) c
    else c
  pushMsg { role := Role.assistant, content := resp.content,
            tool_calls := resp.toolCalls } c1

/-- The fatal message thrown on an authentication error
    (agent.ts line 578). -/
def authThrowMsg (e : ErrVal) (pt : String) : String :=
  "Error: " ++ e.message ++ ". Please check your " ++ pt ++
    " API key and use /login " ++ pt ++ " to set a valid key."

/-- System note appended when the user declines a retry
    (agent.ts lines 590-593). -/
def noRetryMsg (e : ErrVal) : Message :=
  { role := Role.system,
    content := "Request failed with error: Error: " ++ e.message ++
      ". User chose not to retry." }

/-- System note appended when no error callback is wired
    (agent.ts lines 599-602). -/
def recoverMsg (e : ErrVal) : Message :=
  { role := Role.system,
    content := "Previous API request failed with error: Error: " ++ e.message ++
      ". Please try a different approach or ask the user for clarification." }

/-- The max-iterations escalation step: record the callback invocation and
    suspend on it (agent.ts lines 612-616). -/
def maxIterStep (env : Env) (c : Cfg) : Cfg :=
  awaitPoint env (addEvent (Event.maxIterCb maxIterations) c)

/-- The iterate-until-done loop of Agent.chat (agent.ts lines 423-624),
    fuelled: the inner while runs while iteration is below maxIterations,
    checking the interruption flag at the top of each iteration; the outer
    loop handles the max-iterations escalation and counter reset. -/
def chatLoop (env : Env) : Nat → Nat → Cfg → ChatExit × Cfg
  | 0, _, c => (ChatExit.fuelOut, c)
  | fuel + 1, it, c =>
    if it < maxIterations then
      if c.st.isInterrupted then (ChatExit.done, c)
      else
        let c1 := afterBackend env c
        match env.backend c.backendIdx with
        | BackendOutcome.success resp =>
          if resp.toolCalls.isEmpty then
            (ChatExit.done,
             pushMsg { role := Role.assistant, content := resp.content }
               (addEvent (Event.finalMessage resp.content resp.reasoning) c1))
          else
            match runToolCalls env resp.toolCalls (afterAssistant resp c1) with
            | (ToolLoopRes.completed, c4) => chatLoop env fuel (it + 1) c4
            | (ToolLoopRes.rejected, c4) => (ChatExit.done, c4)
            | (ToolLoopRes.interruptedStop, c4) => (ChatExit.done, c4)
        | BackendOutcome.failure e =>
          if isAbortError e then (ChatExit.done, c1)
          else if isAuthError e then
            (ChatExit.threw (authThrowMsg e c1.st.currentProviderType), c1)
          else if env.hasErrorCb then
            let c2 := awaitPoint env (addEvent (Event.errorCb ("Error: " ++ e.message)) c1)
            let retry := env.errAnswer c2.errIdx
            let c3 := { c2 with errIdx := c2.errIdx + 1 }
            if retry then chatLoop env fuel (it + 1) c3
            else (ChatExit.done, pushMsg (noRetryMsg e) c3)
          else chatLoop env fuel (it + 1) (pushMsg (recoverMsg e) c1)
    else
      if env.hasMaxIterCb then
        let c1 := maxIterStep env c
        let sc := env.maxIterAnswer c1.maxIdx
        let c2 := { c1 with maxIdx := c1.maxIdx + 1 }
        if sc then chatLoop env fuel 0 c2 else (ChatExit.done, c2)
      else (ChatExit.done, c)

/-- Model of Agent.chat (agent.ts lines 408-625) for an initialized
    provider: reset the interruption flag, append the user turn, run the
    loop from iteration 0. -/
def chat (env : Env) (fuel : Nat) (s : AgentState) (input : String) : ChatExit × Cfg :=
  chatLoop env fuel 0
    { st := { s with isInterrupted := false,
                     messages := s.messages ++ [{ role := Role.user, content := input }] } }

/-- Model of Agent.clearHistory (agent.ts lines 370-373): keep only the
    system turns. -/
def clearHistory (s : AgentState) : AgentState :=
  { s with messages := s.messages.filter (fun m => m.role == Role.system) }

/-- Model of one invocation of Agent.interrupt on the agent state alone
    (outside of a run): set the flag and append the interruption turn. -/
def interruptAgent (s : AgentState) : AgentState :=
  { s with isInterrupted := true, messages := s.messages ++ [interruptionMsg] }

/-- Replace the content of the first message satisfying p, keeping its
    role, per the findIndex-and-assign pattern of Agent.setModel and
    Agent.switchProvider (agent.ts lines 382-385). -/
def rewriteFirstSystem (p : Message → Bool) (newContent : String) :
    List Message → List Message
  | [] => []
  | m :: rest =>
    if p m then { m with content := newContent } :: rest
    else m :: rewriteFirstSystem p newContent rest

/-- The predicate locating the main system prompt
    (agent.ts line 382): role system and content containing
    the phrase coding assistant. -/
def sysMsgPred (m : Message) : Bool :=
  m.role == Role.system && strHas m.content "coding assistant"

/-- Model of the system-prompt rewrite performed by Agent.setModel. -/
def rewriteSystemPrompt (newContent : String) (s : AgentState) : AgentState :=
  { s with messages := rewriteFirstSystem sysMsgPred newContent s.messages }

/-- The messages created by the Agent constructor (agent.ts lines 63-84):
    the system prompt first, then an optional project-context system turn. -/
def initialMessages (systemMessage : String) (contextMsg : Option String) :
    List Message :=
  { role := Role.system, content := systemMessage } ::
    (match contextMsg with
     | some ctx => [{ role := Role.system, content := ctx }]
     | none => [])

/-- The agent state at construction time. -/
def initState (systemMessage : String) (contextMsg : Option String) : AgentState :=
  { messages := initialMessages systemMessage contextMsg }

/-- The log operations the Agent exposes over its lifetime: runs of chat,
    clearHistory, interrupt, and the in-place system-prompt rewrite. -/
inductive AgentOp : Type
  | chatOp (env : Env) (fuel : Nat) (input : String)
  | clearOp
  | interruptOp
  | rewriteSysOp (newContent : String)

/-- Apply one operation to the agent state. -/
def applyOp (s : AgentState) : AgentOp → AgentState
  | AgentOp.chatOp env fuel input => ((chat env fuel s input).2).st
  | AgentOp.clearOp => clearHistory s
  | AgentOp.interruptOp => interruptAgent s
  | AgentOp.rewriteSysOp nc => rewriteSystemPrompt nc s

/-- Apply a sequence of operations to the agent state. -/
def applyOps (s : AgentState) : List AgentOp → AgentState
  | [] => s
  | op :: rest => applyOps (applyOp s op) rest

/-- The first turn of the log exists and has role system. -/
def headIsSystem (s : AgentState) : Prop :=
  ∃ m rest, s.messages = m :: rest ∧ m.role = Role.system

/-- Relation between two configurations: the second extends the first by
    appending only interruption turns to the log and only events other
    than backend calls to the trace. Used to show that the tool pipeline
    issues no backend calls and leaves earlier log entries untouched. -/
def ExtOk (c c' : Cfg) : Prop :=
  (∃ d, c'.st.messages = c.st.messages ++ d ∧ ∀ m ∈ d, m = interruptionMsg) ∧
  (∃ t, c'.trace = c.trace ++ t ∧ Event.backendCall ∉ t)

/-! ### Provider switching (Agent.switchProvider, agent.ts lines 207-265) -/

/-- Environment for provider initialization: whether the n-th
    create-and-initialize attempt for the named provider succeeds
    (collapsing ProviderFactory.createProvider, getProviderConfig and
    provider.initialize, each of which can throw). -/
structure ProviderEnv : Type where
  initOk : Nat → String → Bool

/-- Association-list update for the per-provider default-model config. -/
def setAssoc (k v : String) : List (String × String) → List (String × String)
  | [] => [(k, v)]
  | (k2, v2) :: rest =>
    if k2 == k then (k, v) :: rest else (k2, v2) :: setAssoc k v rest

/-- Association-list lookup for the per-provider default-model config. -/
def getAssoc (k : String) : List (String × String) → Option String
  | [] => none
  | (k2, v2) :: rest => if k2 == k then some v2 else getAssoc k rest

/-- The DEFAULT_MODELS table from providers/models.ts. -/
def defaultModelFor (p : String) : String :=
  if p == "groq" then "moonshotai/kimi-k2-instruct"
  else if p == "openai" then "o3-mini"
  else if p == "azure" then "o3-mini"
  else if p == "openrouter" then "openai/gpt-oss-120b"
  else if p == "ollama" then "gemma3:270m"
  else ""

/-- The provider-related slice of the session state: active provider type
    and model, the usable (successfully initialized) provider if any, and
    the persisted configuration defaults. -/
structure ProvState : Type where
  currentProviderType : String
  model : String
  provider : Option String := none
  cfgDefaultProvider : String := "groq"
  cfgModels : List (String × String) := []
deriving DecidableEq

/-- Model of Agent.initializeCurrentProvider (agent.ts lines 122-167):
    attempt to initialize the current provider; on failure fall back once
    to groq (when not already groq), mutating the session and persisted
    config; if that also fails, singal the error. The provider field holds
    some type exactly when a provider was initialized successfully. The
    returned Nat is the next attempt index. -/
def initCurrent (env : ProviderEnv) (idx : Nat) (s : ProvState) :
    Bool × ProvState × Nat :=
  if env.initOk idx s.currentProviderType then
    (true, { s with provider := some s.currentProviderType }, idx + 1)
  else if s.currentProviderType != "groq" then
    let s1 := { s with currentProviderType := "groq",
                       model := defaultModelFor "groq",
                       cfgDefaultProvider := "groq",
                       cfgModels := setAssoc "groq" (defaultModelFor "groq") s.cfgModels,
                       provider := none }
    if env.initOk (idx + 1) "groq" then
      (true, { s1 with provider := some "groq" }, idx + 2)
    else (false, s1, idx + 2)
  else (false, { s with provider := none }, idx + 1)

/-- Model of Agent.switchProvider (agent.ts lines 207-265): record the
    previous type and model, commit the new type and model to state and
    config, drop the current provider, initialize; on failure restore type,
    model and config, attempt to re-initialize the previous provider
    (ignoring a failure of that attempt), and propagate the error.
    Returns some error message when the switch threw. -/
def switchProvider (env : ProviderEnv) (s : ProvState) (pt : String)
    (modelOpt : Option String) : Option String × ProvState :=
  let prevType := s.currentProviderType
  let prevModel := s.model
  let s1 := { s with currentProviderType := pt, cfgDefaultProvider := pt }
  let s2 :=
    match modelOpt with
    | some m => { s1 with model := m, cfgModels := setAssoc pt m s1.cfgModels }
    | none => { s1 with model := (getAssoc pt s1.cfgModels).getD (defaultModelFor pt) }
  let s3 := { s2 with provider := none }
  match initCurrent env 0 s3 with
  | (true, s4, _) => (none, s4)
  | (false, s4, idx) =>
    let s5 := { s4 with currentProviderType := prevType, model := prevModel,
                        cfgDefaultProvider := prevType,
                        cfgModels := setAssoc prevType prevModel s4.cfgModels }
    if env.initOk idx prevType then
      (some "switch failed", { s5 with provider := some prevType })
    else (some "switch failed", s5)

/-! ### Concrete instances used to exercise the model -/

/-- A concrete system prompt. -/
def sysPrompt : String := "You are a coding assistant powered by m on p."

/-- Agent state as constructed with no project context file. -/
def st0 : AgentState := initState sysPrompt none

/-- Fresh configuration for a run. -/
def cfg0 : Cfg := { st := st0 }

/-- A configuration whose read-files tracker is enabled and empty. -/
def cfgR : Cfg := { st := { st0 with readFiles := some [] } }

/-- A configuration observed right after an interruption. -/
def cfgInt : Cfg := { st := { st0 with isInterrupted := true } }

/-- Baseline environment: backend answers with a transient failure, tools
    succeed, approvals approve, retry and continuation are declined, no
    interrupts occur around awaits, arguments parse to an empty record,
    path resolution is the identity, and both classification lists are
    empty. -/
def envBase : Env :=
  { backend := fun _ => BackendOutcome.failure { message := "network down" },
    toolImpl := fun _ => Sum.inr { success := true },
    approval := fun _ => { approved := true },
    errAnswer := fun _ => false,
    maxIterAnswer := fun _ => false,
    interruptsAt := fun _ => 0,
    parseArgs := fun _ => some { file_path := none },
    resolvePath := fun p => p }

/-- A dangerous-class tool call. -/
def tcA : ToolCallReq := { id := "call-1", name := "execute_command", arguments := "a" }

/-- A second dangerous-class tool call. -/
def tcB : ToolCallReq := { id := "call-2", name := "execute_command", arguments := "b" }

/-- A safe-class tool call. -/
def tcR : ToolCallReq := { id := "call-3", name := "read_file", arguments := "r" }

/-- An edit_file tool call. -/
def tcE : ToolCallReq := { id := "call-4", name := "edit_file", arguments := "e" }

/-- A create_file tool call. -/
def tcC : ToolCallReq := { id := "call-5", name := "create_file", arguments := "c" }

/-- Environment where the backend requests two dangerous calls and no
    approval callback is wired, so the first call is rejected by default. -/
def envC1x : Env :=
  { envBase with
    backend := fun _ => BackendOutcome.success { toolCalls := [tcA, tcB] },
    hasApprovalCb := false,
    dangerousTools := ["execute_command"] }

/-- Environment where one dangerous call is rejected by the fail-closed
    default. -/
def envC2w : Env :=
  { envBase with hasApprovalCb := false, dangerousTools := ["execute_command"] }

/-- Environment where two interrupt() invocations fire during the first
    backend await and the aborted call then rejects with an abort error. -/
def envC3x : Env :=
  { envBase with
    backend := fun _ => BackendOutcome.failure { message := "Request was aborted" },
    interruptsAt := fun i => if i == 0 then 2 else 0 }

/-- Environment whose argument parser yields a file_path. -/
def envC4w : Env :=
  { envBase with parseArgs := fun _ => some { file_path := some "a.txt" } }

/-- Environment where create_file is approval-required, approval is
    granted, and the tool then runs despite no prior read of its path. -/
def envC4x : Env :=
  { envBase with
    parseArgs := fun _ => some { file_path := some "new.txt" },
    approvalRequiredTools := ["create_file"] }

/-- Environment classifying execute_command as dangerous, with an approval
    callback that approves. -/
def envC5w : Env := { envBase with dangerousTools := ["execute_command"] }

/-- The authentication failure error value. -/
def errAuth : ErrVal := { message := "401 invalid API key" }

/-- Environment whose backend throws an authentication error. -/
def envC6w : Env :=
  { envBase with backend := fun _ => BackendOutcome.failure errAuth }

/-- Provider-initialization environment where every attempt fails. -/
def envPF : ProviderEnv := { initOk := fun _ _ => false }

/-- Provider-initialization environment where only openai initializes. -/
def envPF2 : ProviderEnv := { initOk := fun _ p => p == "openai" }

/-- A session running on an initialized openai provider. -/
def sPrev : ProvState :=
  { currentProviderType := "openai", model := "gpt-4o", provider := some "openai",
    cfgDefaultProvider := "openai", cfgModels := [] }

/-! ### Helper lemmas -/

/-- Closed form of n interrupt() invocations: the flag is set when n is
    positive, and exactly n interruption turns and n events are appended. -/
theorem doInterrupts_eq (n : Nat) (c : Cfg) :
    doInterrupts n c =
      { c with
        st := { c.st with
          isInterrupted := c.st.isInterrupted || !(n == 0),
          messages := c.st.messages ++ List.replicate n interruptionMsg },
        trace := c.trace ++ List.replicate n Event.interruptInvoked } := by
  induction n generalizing c with
  | zero => simp [doInterrupts]
  | succ k ih =>
      simp only [doInterrupts, ih, doInterrupt, addEvent]
      simp [List.replicate_succ, Bool.or_assoc]

/-- Closed form of one await point. -/
theorem awaitPoint_eq (env : Env) (c : Cfg) :
    awaitPoint env c =
      { c with
        awaitIdx := c.awaitIdx + 1,
        st := { c.st with
          isInterrupted :=
            c.st.isInterrupted || !(env.interruptsAt c.awaitIdx == 0),
          messages := c.st.messages ++
            List.replicate (env.interruptsAt c.awaitIdx) interruptionMsg },
        trace := c.trace ++
          List.replicate (env.interruptsAt c.awaitIdx) Event.interruptInvoked } := by
  simp only [awaitPoint, doInterrupts_eq]

/-- The interruption note is not a rejection note. -/
theorem isRejNote_interruption : isRejNote interruptionMsg = false := by decide

/-- A tool turn is not a rejection note. -/
theorem isRejNote_toolTurn (tc : ToolCallReq) (r : ToolResult) :
    isRejNote (toolTurnMsg tc r) = false := by
  simp [isRejNote, toolTurnMsg]

/-- A list prefix is detected by preChars. -/
theorem preChars_append_self (l xs : List Char) : preChars l (l ++ xs) = true := by
  induction l with
  | nil => rfl
  | cons a as ih => simp [preChars, ih]

/-- The rejection note is recognized as one. -/
theorem isRejNote_rejNote (name : String) : isRejNote (rejNoteMsg name) = true := by
  have hdata : (rejNoteContent name).data =
      "The user rejected the ".data ++
        (name ++ (" tool execution. The response has been terminated. Please wait for the user" ++ apos ++ "s next instruction.")).data := by
    simp only [rejNoteContent, String.data_append, List.append_assoc]
  simp only [isRejNote, rejNoteMsg, strStarts]
  rw [hdata, preChars_append_self]
  decide

/-- ExtOk holds when messages and trace are unchanged. -/
theorem ExtOk_of_eq {c c' : Cfg} (h1 : c'.st.messages = c.st.messages)
    (h2 : c'.trace = c.trace) : ExtOk c c' := by
  exact ⟨⟨[], by simp [h1], by simp⟩, ⟨[], by simp [h2], by simp⟩⟩

/-- ExtOk is reflexive. -/
theorem ExtOk_refl (c : Cfg) : ExtOk c c := ExtOk_of_eq rfl rfl

/-- ExtOk is transitive. -/
theorem ExtOk_trans {a b c : Cfg} (h1 : ExtOk a b) (h2 : ExtOk b c) : ExtOk a c := by
  obtain ⟨⟨d1, hd1, hall1⟩, ⟨t1, ht1, hb1⟩⟩ := h1
  obtain ⟨⟨d2, hd2, hall2⟩, ⟨t2, ht2, hb2⟩⟩ := h2
  refine ⟨⟨d1 ++ d2, ?_, ?_⟩, ⟨t1 ++ t2, ?_, ?_⟩⟩
  · rw [hd2, hd1, List.append_assoc]
  · intro m hm
    rcases List.mem_append.mp hm with h | h
    · exact hall1 m h
    · exact hall2 m h
  · rw [ht2, ht1, List.append_assoc]
  · intro hmem
    rcases List.mem_append.mp hmem with h | h
    · exact hb1 h
    · exact hb2 h

/-- Recording any non-backend event preserves ExtOk. -/
theorem ExtOk_addEvent {e : Event} (h : e ≠ Event.backendCall) (c : Cfg) :
    ExtOk c (addEvent e c) := by
  refine ⟨⟨[], by simp [addEvent], by simp⟩, ⟨[e], by simp [addEvent], ?_⟩⟩
  intro hmem
  simp only [List.mem_singleton] at hmem
  exact h hmem.symm

/-- An await point appends only interruption turns and events. -/
theorem ExtOk_awaitPoint (env : Env) (c : Cfg) : ExtOk c (awaitPoint env c) := by
  rw [awaitPoint_eq]
  refine ⟨⟨List.replicate (env.interruptsAt c.awaitIdx) interruptionMsg, by simp, ?_⟩,
    ⟨List.replicate (env.interruptsAt c.awaitIdx) Event.interruptInvoked, by simp, ?_⟩⟩
  · intro m hm; exact List.eq_of_mem_replicate hm
  · intro hmem
    have := List.eq_of_mem_replicate hmem
    simp at this

/-- Tool dispatch issues no backend call and appends only interruption
    turns to the log. -/
theorem runToolImpl_ext (env : Env) (c : Cfg) (n : String) :
    ExtOk c (runToolImpl env c n).2 := by
  simp only [runToolImpl]
  split
  · exact ExtOk_trans (ExtOk_trans (ExtOk_addEvent (by simp) c) (ExtOk_awaitPoint env _))
      (ExtOk_of_eq rfl rfl)
  · exact ExtOk_trans (ExtOk_trans (ExtOk_trans (ExtOk_addEvent (by simp) c)
      (ExtOk_awaitPoint env _)) (ExtOk_of_eq rfl rfl)) (ExtOk_addEvent (by simp) _)

/-- The approval gate and tool dispatch issue no backend call and append
    only interruption turns to the log. -/
theorem toolGateAndRun_ext (env : Env) (c : Cfg) (n : String) :
    ExtOk c (toolGateAndRun env c n).2 := by
  simp only [toolGateAndRun]
  split
  · split
    · split
      · exact ExtOk_addEvent (by simp) c
      · have hbase : ExtOk c
            { awaitPoint env (addEvent (Event.approvalRequest n) c) with
              apprIdx := (awaitPoint env (addEvent (Event.approvalRequest n) c)).apprIdx + 1 } :=
          ExtOk_trans (ExtOk_trans (ExtOk_addEvent (by simp) c) (ExtOk_awaitPoint env _))
            (ExtOk_of_eq rfl rfl)
        split
        · exact ExtOk_trans hbase (ExtOk_addEvent (by simp) _)
        · split
          · split
            · exact ExtOk_trans (ExtOk_trans hbase (ExtOk_of_eq rfl rfl))
                (ExtOk_addEvent (by simp) _)
            · exact ExtOk_trans hbase (ExtOk_addEvent (by simp) _)
          · split
            · exact ExtOk_trans (ExtOk_trans hbase (ExtOk_of_eq rfl rfl))
                (runToolImpl_ext env _ n)
            · exact ExtOk_trans hbase (runToolImpl_ext env _ n)
    · exact ExtOk_addEvent (by simp) c
  · exact runToolImpl_ext env c n

/-- Agent.executeToolCall issues no backend call and appends only
    interruption turns to the log. -/
theorem executeToolCall_ext (env : Env) (c : Cfg) (tc : ToolCallReq) :
    ExtOk c (executeToolCall env c tc).2 := by
  simp only [executeToolCall]
  split
  · exact ExtOk_refl c
  · split
    · exact ExtOk_trans (ExtOk_addEvent (by simp) c) (ExtOk_addEvent (by simp) _)
    · exact ExtOk_trans (ExtOk_addEvent (by simp) c) (toolGateAndRun_ext env _ _)

/-- Message-extension component of ExtOk. -/
theorem msgsExt_of_ExtOk {a b : Cfg} (h : ExtOk a b) :
    ∃ d, b.st.messages = a.st.messages ++ d := by
  obtain ⟨⟨d, hd, _⟩, _⟩ := h
  exact ⟨d, hd⟩

/-- Message extensions compose. -/
theorem msgsExt_trans {a b c : Cfg}
    (h1 : ∃ d, b.st.messages = a.st.messages ++ d)
    (h2 : ∃ d, c.st.messages = b.st.messages ++ d) :
    ∃ d, c.st.messages = a.st.messages ++ d := by
  obtain ⟨d1, h1⟩ := h1
  obtain ⟨d2, h2⟩ := h2
  exact ⟨d1 ++ d2, by rw [h2, h1, List.append_assoc]⟩

/-- The tool loop of one iteration only appends to the log, and never
    emits a backend call event. -/
theorem runToolCalls_ext (env : Env) :
    ∀ (tcs : List ToolCallReq) (c : Cfg),
    (∃ d, ((runToolCalls env tcs c).2).st.messages = c.st.messages ++ d) ∧
    (∃ t, ((runToolCalls env tcs c).2).trace = c.trace ++ t ∧
      Event.backendCall ∉ t) := by
  intro tcs
  induction tcs with
  | nil =>
      intro c
      exact ⟨⟨[], by simp [runToolCalls]⟩, ⟨[], by simp [runToolCalls], by simp⟩⟩
  | cons tc rest ih =>
      intro c
      by_cases hI : c.st.isInterrupted = true
      · simp only [runToolCalls, hI, if_true]
        exact ⟨⟨[], by simp⟩, ⟨[], by simp, by simp⟩⟩
      · rcases hexec : executeToolCall env c tc with ⟨r, c1⟩
        have hext : ExtOk c c1 := by
          have := executeToolCall_ext env c tc
          rwa [hexec] at this
        simp only [runToolCalls, hI, if_false, hexec]
        have hc2m : (pushMsg (toolTurnMsg tc r) c1).st.messages =
            c1.st.messages ++ [toolTurnMsg tc r] := by simp [pushMsg]
        have hc2t : (pushMsg (toolTurnMsg tc r) c1).trace = c1.trace := rfl
        by_cases hr : r.userRejected = true
        · simp only [hr, if_true]
          constructor
          · refine msgsExt_trans (msgsExt_of_ExtOk hext) ?_
            exact ⟨[toolTurnMsg tc r, rejNoteMsg tc.name], by simp [pushMsg]⟩
          · obtain ⟨_, ⟨t, ht, hb⟩⟩ := hext
            exact ⟨t, by simp [pushMsg, ht], hb⟩
        · simp only [Bool.not_eq_true] at hr
          simp only [hr, Bool.false_eq_true, if_false]
          obtain ⟨ihm, iht⟩ := ih (pushMsg (toolTurnMsg tc r) c1)
          constructor
          · refine msgsExt_trans (msgsExt_of_ExtOk hext)
              (msgsExt_trans ⟨[toolTurnMsg tc r], hc2m⟩ ihm)
          · obtain ⟨_, ⟨t1, ht1, hb1⟩⟩ := hext
            obtain ⟨t2, ht2, hb2⟩ := iht
            refine ⟨t1 ++ t2, ?_, ?_⟩
            · rw [ht2, hc2t, ht1, List.append_assoc]
            · intro hmem
              rcases List.mem_append.mp hmem with h | h
              · exact hb1 h
              · exact hb2 h

/-- Closed form of the backend-call step. -/
theorem afterBackend_eq (env : Env) (c : Cfg) :
    afterBackend env c =
      { c with
        st := { c.st with
          requestCount := c.st.requestCount + 1,
          isInterrupted :=
            c.st.isInterrupted || !(env.interruptsAt c.awaitIdx == 0),
          messages := c.st.messages ++
            List.replicate (env.interruptsAt c.awaitIdx) interruptionMsg },
        trace := (c.trace ++ [Event.backendCall]) ++
          List.replicate (env.interruptsAt c.awaitIdx) Event.interruptInvoked,
        backendIdx := c.backendIdx + 1,
        awaitIdx := c.awaitIdx + 1 } := by
  simp only [afterBackend, backendStep, addEvent, awaitPoint_eq]

/-- Processing a tool-call response appends exactly the assistant turn. -/
theorem afterAssistant_msgs (resp : ChatResponse) (c : Cfg) :
    (afterAssistant resp c).st.messages = c.st.messages ++
      [{ role := Role.assistant, content := resp.content,
         tool_calls := resp.toolCalls }] := by
  simp only [afterAssistant, pushMsg, addEvent]
  split <;> rfl

/-- Closed form of the max-iterations escalation step. -/
theorem maxIterStep_eq (env : Env) (c : Cfg) :
    maxIterStep env c =
      { c with
        st := { c.st with
          isInterrupted :=
            c.st.isInterrupted || !(env.interruptsAt c.awaitIdx == 0),
          messages := c.st.messages ++
            List.replicate (env.interruptsAt c.awaitIdx) interruptionMsg },
        trace := (c.trace ++ [Event.maxIterCb maxIterations]) ++
          List.replicate (env.interruptsAt c.awaitIdx) Event.interruptInvoked,
        awaitIdx := c.awaitIdx + 1 } := by
  simp only [maxIterStep, addEvent, awaitPoint_eq]

/-- The chat loop only appends to the conversation log. -/
theorem chatLoop_msgs (env : Env) :
    ∀ (fuel it : Nat) (c : Cfg),
    ∃ d, ((chatLoop env fuel it c).2).st.messages = c.st.messages ++ d := by
  intro fuel
  induction fuel with
  | zero => intro it c; exact ⟨[], by simp [chatLoop]⟩
  | succ f ih =>
      intro it c
      have hc1 : ∃ d, (afterBackend env c).st.messages = c.st.messages ++ d :=
        ⟨List.replicate (env.interruptsAt c.awaitIdx) interruptionMsg,
          by rw [afterBackend_eq]⟩
      simp only [chatLoop]
      split
      · split
        · exact ⟨[], by simp⟩
        · split
          case h_1 resp hresp =>
            split
            · exact msgsExt_trans (b := afterBackend env c) hc1
                ⟨[{ role := Role.assistant, content := resp.content }],
                  by simp [pushMsg, addEvent]⟩
            · split
              case h_1 c4 heq =>
                refine msgsExt_trans (b := c4) ?_ (ih _ _)
                refine msgsExt_trans (b := afterBackend env c) hc1 ?_
                refine msgsExt_trans (b := afterAssistant resp (afterBackend env c))
                  ⟨_, afterAssistant_msgs _ _⟩ ?_
                have := (runToolCalls_ext env resp.toolCalls
                  (afterAssistant resp (afterBackend env c))).1
                rwa [heq] at this
              case h_2 c4 heq =>
                refine msgsExt_trans (b := afterBackend env c) hc1 ?_
                refine msgsExt_trans (b := afterAssistant resp (afterBackend env c))
                  ⟨_, afterAssistant_msgs _ _⟩ ?_
                have := (runToolCalls_ext env resp.toolCalls
                  (afterAssistant resp (afterBackend env c))).1
                rwa [heq] at this
              case h_3 c4 heq =>
                refine msgsExt_trans (b := afterBackend env c) hc1 ?_
                refine msgsExt_trans (b := afterAssistant resp (afterBackend env c))
                  ⟨_, afterAssistant_msgs _ _⟩ ?_
                have := (runToolCalls_ext env resp.toolCalls
                  (afterAssistant resp (afterBackend env c))).1
                rwa [heq] at this
          case h_2 e he =>
            split
            · exact hc1
            · split
              · exact hc1
              · split
                · split
                  · refine msgsExt_trans (b := awaitPoint env
                      (addEvent (Event.errorCb ("Error: " ++ e.message))
                        (afterBackend env c))) ?_ ?_
                    · refine msgsExt_trans (b := afterBackend env c) hc1 ?_
                      exact msgsExt_of_ExtOk
                        (ExtOk_trans (ExtOk_addEvent (by simp) _) (ExtOk_awaitPoint env _))
                    · exact ih _ _
                  · refine msgsExt_trans (b := awaitPoint env
                      (addEvent (Event.errorCb ("Error: " ++ e.message))
                        (afterBackend env c))) ?_ ⟨[noRetryMsg e], by simp [pushMsg]⟩
                    refine msgsExt_trans (b := afterBackend env c) hc1 ?_
                    exact msgsExt_of_ExtOk
                      (ExtOk_trans (ExtOk_addEvent (by simp) _) (ExtOk_awaitPoint env _))
                · refine msgsExt_trans (b := pushMsg (recoverMsg e) (afterBackend env c))
                    ?_ (ih _ _)
                  exact msgsExt_trans (b := afterBackend env c) hc1
                    ⟨[recoverMsg e], by simp [pushMsg]⟩
      · split
        · split
          · refine msgsExt_trans (b := maxIterStep env c) ?_ (ih _ _)
            exact ⟨_, by rw [maxIterStep_eq]⟩
          · exact ⟨_, by rw [maxIterStep_eq]⟩
        · exact ⟨[], by simp⟩

/-- Once the interruption flag is set, the remainder of the loop issues no
    backend call, no tool execution, no approval request and no callback
    other than (possibly) the max-iterations escalation: the only trace
    events still produced are the max-iterations callback record and
    further interrupt records. -/
theorem chatLoop_interrupted (env : Env) :
    ∀ (fuel it : Nat) (c : Cfg), c.st.isInterrupted = true →
    ∃ t, ((chatLoop env fuel it c).2).trace = c.trace ++ t ∧
      ∀ e ∈ t, e = Event.maxIterCb maxIterations ∨ e = Event.interruptInvoked := by
  intro fuel
  induction fuel with
  | zero => intro it c hI; exact ⟨[], by simp [chatLoop], by simp⟩
  | succ f ih =>
      intro it c hI
      simp only [chatLoop]
      split
      · simp only [hI, if_true]
        exact ⟨[], by simp, by simp⟩
      · split
        · have hI2 : ({ maxIterStep env c with
              maxIdx := (maxIterStep env c).maxIdx + 1 } : Cfg).st.isInterrupted = true := by
            rw [maxIterStep_eq]; simp [hI]
          have htr : ({ maxIterStep env c with
              maxIdx := (maxIterStep env c).maxIdx + 1 } : Cfg).trace =
              c.trace ++ (Event.maxIterCb maxIterations ::
                List.replicate (env.interruptsAt c.awaitIdx) Event.interruptInvoked) := by
            rw [maxIterStep_eq]; simp
          split
          · obtain ⟨t, ht, hall⟩ := ih 0 _ hI2
            refine ⟨(Event.maxIterCb maxIterations ::
              List.replicate (env.interruptsAt c.awaitIdx) Event.interruptInvoked) ++ t,
              ?_, ?_⟩
            · rw [ht, htr, List.append_assoc]
            · intro e hmem
              rcases List.mem_append.mp hmem with h | h
              · rcases List.mem_cons.mp h with h2 | h2
                · exact Or.inl h2
                · exact Or.inr (List.eq_of_mem_replicate h2)
              · exact hall e h
          · refine ⟨Event.maxIterCb maxIterations ::
              List.replicate (env.interruptsAt c.awaitIdx) Event.interruptInvoked,
              htr, ?_⟩
            intro e hmem
            rcases List.mem_cons.mp hmem with h2 | h2
            · exact Or.inl h2
            · exact Or.inr (List.eq_of_mem_replicate h2)
        · exact ⟨[], by simp, by simp⟩

/-- Interruption turns are not tool turns. -/
theorem interruption_not_tool_role (m : Message) (h : m = interruptionMsg) :
    (m.role == Role.tool) = false := by
  subst h; decide

/-- Core pairing lemma: when the tool loop processes a whole request list
    without rejection or interruption cutoff, the appended log delta
    contains exactly one tool turn per request, in request order, with
    matching tool_call_id. -/
theorem runToolCalls_completed_pairing (env : Env) :
    ∀ (tcs : List ToolCallReq) (c c' : Cfg),
    runToolCalls env tcs c = (ToolLoopRes.completed, c') →
    ∃ delta, c'.st.messages = c.st.messages ++ delta ∧
      (delta.filter (fun m => m.role == Role.tool)).map (fun m => m.tool_call_id) =
        tcs.map (fun tc => some tc.id) := by
  intro tcs
  induction tcs with
  | nil =>
      intro c c' h
      simp only [runToolCalls, Prod.mk.injEq] at h
      exact ⟨[], by simp [h.2], by simp⟩
  | cons tc rest ih =>
      intro c c' h
      by_cases hI : c.st.isInterrupted = true
      · simp [runToolCalls, hI] at h
      · rcases hexec : executeToolCall env c tc with ⟨r, c1⟩
        simp only [Bool.not_eq_true] at hI
        simp only [runToolCalls, hI, Bool.false_eq_true, if_false, hexec] at h
        by_cases hr : r.userRejected = true
        · simp [hr] at h
        · simp only [Bool.not_eq_true] at hr
          simp only [hr, Bool.false_eq_true, if_false] at h
          obtain ⟨delta2, hd2, hmap2⟩ := ih _ _ h
          have hext : ExtOk c c1 := by
            have := executeToolCall_ext env c tc
            rwa [hexec] at this
          obtain ⟨⟨d0, hd0, hall0⟩, _⟩ := hext
          refine ⟨d0 ++ ([toolTurnMsg tc r] ++ delta2), ?_, ?_⟩
          · rw [hd2]
            simp only [pushMsg]
            rw [hd0]
            simp [List.append_assoc]
          · have hfilter0 : d0.filter (fun m => m.role == Role.tool) = [] := by
              rw [List.filter_eq_nil_iff]
              intro a ha
              simp [interruption_not_tool_role a (hall0 a ha)]
            simp only [List.filter_append, hfilter0, List.map_append, List.nil_append]
            have htt : ([toolTurnMsg tc r].filter
                (fun m => m.role == Role.tool)) = [toolTurnMsg tc r] := by
              simp [toolTurnMsg]
            rw [htt, hmap2]
            simp [toolTurnMsg]

/-- Shape of a rejected tool loop: the delta ends with the rejected call's
    tool turn followed by exactly one rejection note (no earlier message of
    the delta is a rejection note), and the outcome only depends on the
    requests up to and including the rejected one — the remaining requests
    are never processed. -/
theorem runToolCalls_rejected_shape (env : Env) :
    ∀ (tcs : List ToolCallReq) (c c' : Cfg),
    runToolCalls env tcs c = (ToolLoopRes.rejected, c') →
    (∃ pre tcm r, r.userRejected = true ∧ tcm ∈ tcs ∧
       c'.st.messages = c.st.messages ++
         (pre ++ [toolTurnMsg tcm r, rejNoteMsg tcm.name]) ∧
       pre.filter isRejNote = []) ∧
    (∃ k, k < tcs.length ∧
       runToolCalls env (tcs.take (k + 1)) c = (ToolLoopRes.rejected, c')) := by
  intro tcs
  induction tcs with
  | nil =>
      intro c c' h
      simp [runToolCalls] at h
  | cons tc rest ih =>
      intro c c' h
      by_cases hI : c.st.isInterrupted = true
      · simp [runToolCalls, hI] at h
      · rcases hexec : executeToolCall env c tc with ⟨r, c1⟩
        simp only [Bool.not_eq_true] at hI
        simp only [runToolCalls, hI, Bool.false_eq_true, if_false, hexec] at h
        have hext : ExtOk c c1 := by
          have := executeToolCall_ext env c tc
          rwa [hexec] at this
        obtain ⟨⟨d0, hd0, hall0⟩, _⟩ := hext
        have hfilter0 : d0.filter isRejNote = [] := by
          rw [List.filter_eq_nil_iff]
          intro a ha
          rw [hall0 a ha]
          simp [isRejNote_interruption]
        by_cases hr : r.userRejected = true
        · simp only [hr, if_true, Prod.mk.injEq, true_and] at h
          constructor
          · refine ⟨d0, tc, r, hr, List.mem_cons_self tc rest, ?_, hfilter0⟩
            rw [← h]
            simp only [pushMsg]
            rw [hd0]
            simp [List.append_assoc]
          · refine ⟨0, by simp, ?_⟩
            simp only [List.take, runToolCalls, hI, Bool.false_eq_true, if_false,
              hexec, hr, if_true]
            rw [h]
        · simp only [Bool.not_eq_true] at hr
          simp only [hr, Bool.false_eq_true, if_false] at h
          obtain ⟨⟨pre2, tcm, r2, hr2, hmem2, hmsgs2, hfil2⟩, ⟨k2, hk2, htake2⟩⟩ :=
            ih _ _ h
          constructor
          · refine ⟨d0 ++ ([toolTurnMsg tc r] ++ pre2), tcm, r2, hr2,
              List.mem_cons_of_mem tc hmem2, ?_, ?_⟩
            · rw [hmsgs2]
              simp only [pushMsg]
              rw [hd0]
              simp [List.append_assoc]
            · simp only [List.filter_append, hfilter0, hfil2,
                List.nil_append, List.append_nil]
              simp [isRejNote_toolTurn]
          · refine ⟨k2 + 1, by simpa using Nat.succ_lt_succ hk2, ?_⟩
            simp only [List.take, runToolCalls, hI, Bool.false_eq_true, if_false,
              hexec, hr, if_false]
            exact htake2

/-- A rejection inside one iteration of the chat loop terminates the run
    at once: the loop returns Done with the exact configuration produced
    by the tool loop, so no further backend call or tool execution occurs
    in that run. -/
theorem chatLoop_rejected_stops (env : Env) (fuel it : Nat) (c : Cfg)
    (resp : ChatResponse) (c' : Cfg)
    (hlt : it < maxIterations) (hI : c.st.isInterrupted = false)
    (hb : env.backend c.backendIdx = BackendOutcome.success resp)
    (hne : resp.toolCalls.isEmpty = false)
    (hrun : runToolCalls env resp.toolCalls
      (afterAssistant resp (afterBackend env c)) = (ToolLoopRes.rejected, c')) :
    chatLoop env (fuel + 1) it c = (ChatExit.done, c') := by
  simp only [chatLoop, hlt, if_true, hI, Bool.false_eq_true, if_false, hb, hne, hrun]

/-- Tool dispatch does not change the session auto-approve flag. -/
theorem runToolImpl_session (env : Env) (c : Cfg) (n : String) :
    ((runToolImpl env c n).2).st.sessionAutoApprove = c.st.sessionAutoApprove := by
  simp only [runToolImpl, awaitPoint_eq, addEvent]
  split <;> rfl

/-- Gate analysis for a dangerous-classified tool name: the session
    auto-approve flag is never changed, and the tool body can only run
    when an approval callback is wired, it was consulted, and it answered
    approved. -/
theorem toolGateAndRun_dangerous (env : Env) (c : Cfg) (n : String)
    (r : ToolResult) (c' : Cfg)
    (hgate : toolGateAndRun env c n = (r, c'))
    (hd : env.dangerousTools.contains n = true) :
    c'.st.sessionAutoApprove = c.st.sessionAutoApprove ∧
    (Event.toolExec n ∉ c.trace → Event.toolExec n ∈ c'.trace →
      env.hasApprovalCb = true ∧ (env.approval c.apprIdx).approved = true ∧
      Event.approvalRequest n ∈ c'.trace) := by
  simp only [toolGateAndRun, hd, Bool.true_or, Bool.not_true, Bool.and_false,
    Bool.false_and, Bool.not_false, Bool.true_and, Bool.and_true,
    Bool.false_eq_true, eq_self_iff_true, if_true, if_false] at hgate
  split at hgate
  · split at hgate
    · -- interrupted before the approval wait
      injection hgate with h1 h2
      subst h2
      refine ⟨rfl, ?_⟩
      intro hnotin hmem
      simp [addEvent, hnotin] at hmem
    · split at hgate
      · -- interrupted after the approval wait
        injection hgate with h1 h2
        subst h2
        refine ⟨?_, ?_⟩
        · simp [addEvent, awaitPoint_eq]
        · intro hnotin hmem
          simp [addEvent, awaitPoint_eq, List.mem_replicate, hnotin] at hmem
      · split at hgate
        · -- approval denied
          injection hgate with h1 h2
          subst h2
          refine ⟨?_, ?_⟩
          · simp [addEvent, awaitPoint_eq]
          · intro hnotin hmem
            simp [addEvent, awaitPoint_eq, List.mem_replicate, hnotin] at hmem
        · -- approval granted: the tool body runs
          rename_i hcb hint1 hint2 happr
          have hc' : (runToolImpl env
              { awaitPoint env (addEvent (Event.approvalRequest n) c) with
                apprIdx :=
                  (awaitPoint env (addEvent (Event.approvalRequest n) c)).apprIdx + 1 }
              n).2 = c' := congrArg Prod.snd hgate
          refine ⟨?_, ?_⟩
          · rw [← hc', runToolImpl_session]
            simp [addEvent, awaitPoint_eq]
          · intro hnotin hmem
            have hidx : (awaitPoint env (addEvent (Event.approvalRequest n) c)).apprIdx
                = c.apprIdx := by
              simp [addEvent, awaitPoint_eq]
            refine ⟨hcb, ?_, ?_⟩
            · rw [hidx] at happr
              revert happr
              cases (env.approval c.apprIdx).approved <;> simp
            · obtain ⟨_, ⟨t, ht, _⟩⟩ := runToolImpl_ext env
                { awaitPoint env (addEvent (Event.approvalRequest n) c) with
                  apprIdx :=
                    (awaitPoint env (addEvent (Event.approvalRequest n) c)).apprIdx + 1 }
                n
              rw [← hc', ht]
              simp [addEvent, awaitPoint_eq]
  · -- gate bypassed without an approval callback wired: fail closed
    injection hgate with h1 h2
    subst h2
    refine ⟨rfl, ?_⟩
    intro hnotin hmem
    simp [addEvent, hnotin] at hmem

/-- Stripping the prefix from a prefixed name yields the remainder. -/
theorem stripRepo_prefixed (name : String) :
    stripRepo ("repo_browser." ++ name) = name := by
  have hdata : ("repo_browser." ++ name).data = repoChars ++ name.data := rfl
  have hlen : repoChars.length = 13 := by decide
  simp only [stripRepo, hdata, preChars_append_self, if_true]
  rw [show (13 : Nat) = repoChars.length from hlen.symm, List.drop_left]

/-- A name that does not carry the prefix is left unchanged. -/
theorem stripRepo_plain (name : String)
    (h : preChars repoChars name.data = false) :
    stripRepo name = name := by
  simp [stripRepo, h]

/-- Appending to the log preserves the head-is-system invariant. -/
theorem headIsSystem_of_ext {s s' : AgentState} (h : headIsSystem s)
    (hext : ∃ d, s'.messages = s.messages ++ d) : headIsSystem s' := by
  obtain ⟨m, rest, hm, hrole⟩ := h
  obtain ⟨d, hd⟩ := hext
  exact ⟨m, rest ++ d, by rw [hd, hm]; simp, hrole⟩

/-- clearHistory preserves the head-is-system invariant. -/
theorem headIsSystem_clear {s : AgentState} (h : headIsSystem s) :
    headIsSystem (clearHistory s) := by
  obtain ⟨m, rest, hm, hrole⟩ := h
  refine ⟨m, rest.filter (fun m2 => m2.role == Role.system), ?_, hrole⟩
  simp only [clearHistory, hm, List.filter_cons]
  rw [if_pos]
  simp [hrole]

/-- The in-place system-prompt rewrite preserves the invariant. -/
theorem headIsSystem_rewrite {s : AgentState} (nc : String)
    (h : headIsSystem s) : headIsSystem (rewriteSystemPrompt nc s) := by
  obtain ⟨m, rest, hm, hrole⟩ := h
  simp only [rewriteSystemPrompt, hm, rewriteFirstSystem]
  by_cases hp : sysMsgPred m = true
  · exact ⟨{ m with content := nc }, rest, by simp [hp], hrole⟩
  · simp only [Bool.not_eq_true] at hp
    exact ⟨m, rewriteFirstSystem sysMsgPred nc rest, by simp [hp], hrole⟩

/-- The constructor state satisfies the invariant. -/
theorem headIsSystem_init (m : String) (ctx : Option String) :
    headIsSystem (initState m ctx) :=
  ⟨{ role := Role.system, content := m }, _, rfl, rfl⟩

/-- Every exposed operation preserves the invariant. -/
theorem headIsSystem_applyOp {s : AgentState} (op : AgentOp)
    (h : headIsSystem s) : headIsSystem (applyOp s op) := by
  cases op with
  | chatOp env fuel input =>
      refine headIsSystem_of_ext h ?_
      obtain ⟨d, hd⟩ := chatLoop_msgs env fuel 0
        { st := { s with
                  isInterrupted := false,
                  messages := s.messages ++
                    [{ role := Role.user, content := input }] } }
      exact ⟨[{ role := Role.user, content := input }] ++ d,
        by simp only [applyOp, chat]; rw [hd]; simp⟩
  | clearOp => exact headIsSystem_clear h
  | interruptOp =>
      exact headIsSystem_of_ext h ⟨[interruptionMsg], rfl⟩
  | rewriteSysOp nc => exact headIsSystem_rewrite nc h

/-- The invariant holds after any operation sequence from construction. -/
theorem headIsSystem_applyOps (s : AgentState) (h : headIsSystem s) :
    ∀ ops : List AgentOp, headIsSystem (applyOps s ops) := by
  intro ops
  induction ops generalizing s with
  | nil => exact h
  | cons op rest ih => exact ih _ (headIsSystem_applyOp op h)

/-! ### Claim theorems -/

/-- Claim C1, counterexample: the claim says every requested call of an
    assistant turn gets exactly one tool turn, rejected calls included. In
    this run the backend requests two tool calls; the first is rejected
    (fail-closed, no approval callback), the loop stops, and the log holds
    an assistant turn requesting 2 calls but only 1 tool turn. -/
theorem toolTurn_pairing_counterexample :
    (((chat envC1x 3 st0 "go").2).st.messages.filter
        (fun m => m.role == Role.tool)).length = 1 ∧
    (((chat envC1x 3 st0 "go").2).st.messages.filter
        (fun m => !m.tool_calls.isEmpty)).map (fun m => m.tool_calls.length) =
      [2] := by
  decide

/-- Claim C1, amended: whenever the tool loop of one assistant turn runs
    to completion (no user rejection and no interruption cutoff), the log
    delta contains exactly one tool turn per requested call, in request
    order, each with tool_call_id equal to the id of the request it
    answers; this covers successful and failed calls alike. -/
theorem toolTurn_pairing_on_completed :
    ∀ (env : Env) (tcs : List ToolCallReq) (c c' : Cfg),
    runToolCalls env tcs c = (ToolLoopRes.completed, c') →
    ∃ delta, c'.st.messages = c.st.messages ++ delta ∧
      (delta.filter (fun m => m.role == Role.tool)).map
          (fun m => m.tool_call_id) =
        tcs.map (fun tc => some tc.id) :=
  fun env => runToolCalls_completed_pairing env

/-- Witness for the amended claim C1 at a concrete completed run. -/
theorem toolTurn_pairing_witness :
    ∃ delta, ((runToolCalls envBase [tcR] cfg0).2).st.messages =
      cfg0.st.messages ++ delta ∧
      (delta.filter (fun m => m.role == Role.tool)).map
          (fun m => m.tool_call_id) =
        [tcR].map (fun tc => some tc.id) :=
  toolTurn_pairing_on_completed envBase [tcR] cfg0
    (runToolCalls envBase [tcR] cfg0).2 rfl

/-- Claim C2: when a tool result carries userRejected, the tool turn for
    that call is followed by exactly one explanatory system note (no other
    note of that shape appears in the delta), the remaining requests of
    the assistant turn are never processed (the outcome only depends on
    the requests up to the rejected one), the tool loop emits no backend
    call, and the chat loop returns Done with the rejection configuration
    unchanged, so no further backend call occurs in the run. -/
theorem user_rejection_terminates_run :
    (∀ (env : Env) (tcs : List ToolCallReq) (c c' : Cfg),
      runToolCalls env tcs c = (ToolLoopRes.rejected, c') →
      (∃ pre tcm r, r.userRejected = true ∧ tcm ∈ tcs ∧
          c'.st.messages = c.st.messages ++
            (pre ++ [toolTurnMsg tcm r, rejNoteMsg tcm.name]) ∧
          pre.filter isRejNote = []) ∧
      (∃ k, k < tcs.length ∧
          runToolCalls env (tcs.take (k + 1)) c = (ToolLoopRes.rejected, c')) ∧
      (∃ t, c'.trace = c.trace ++ t ∧ Event.backendCall ∉ t)) ∧
    (∀ (env : Env) (fuel it : Nat) (c : Cfg) (resp : ChatResponse) (c' : Cfg),
      it < maxIterations → c.st.isInterrupted = false →
      env.backend c.backendIdx = BackendOutcome.success resp →
      resp.toolCalls.isEmpty = false →
      runToolCalls env resp.toolCalls
        (afterAssistant resp (afterBackend env c)) = (ToolLoopRes.rejected, c') →
      chatLoop env (fuel + 1) it c = (ChatExit.done, c')) := by
  constructor
  · intro env tcs c c' h
    obtain ⟨hshape, htake⟩ := runToolCalls_rejected_shape env tcs c c' h
    refine ⟨hshape, htake, ?_⟩
    have := (runToolCalls_ext env tcs c).2
    rwa [h] at this
  · intro env fuel it c resp c' hlt hI hb hne hrun
    exact chatLoop_rejected_stops env fuel it c resp c' hlt hI hb hne hrun

/-- Witness for claim C2 at a concrete rejected run. -/
theorem user_rejection_witness :
    (∃ pre tcm r, r.userRejected = true ∧ tcm ∈ [tcA] ∧
        ((runToolCalls envC2w [tcA] cfg0).2).st.messages = cfg0.st.messages ++
          (pre ++ [toolTurnMsg tcm r, rejNoteMsg tcm.name]) ∧
        pre.filter isRejNote = []) ∧
    (∃ k, k < ([tcA] : List ToolCallReq).length ∧
        runToolCalls envC2w ([tcA].take (k + 1)) cfg0 =
          (ToolLoopRes.rejected, (runToolCalls envC2w [tcA] cfg0).2)) ∧
    (∃ t, ((runToolCalls envC2w [tcA] cfg0).2).trace = cfg0.trace ++ t ∧
        Event.backendCall ∉ t) :=
  user_rejection_terminates_run.1 envC2w [tcA] cfg0
    (runToolCalls envC2w [tcA] cfg0).2 rfl

/-- Claim C3, counterexample: the claim says at most one interruption
    turn is recorded per run even for repeated interrupt() invocations.
    Here two invocations fire during the first backend await of one run
    and the log of that run holds two interruption turns. -/
theorem interruption_once_counterexample :
    (((chat envC3x 2 st0 "q").2).st.messages.filter
        (fun m => decide (m = interruptionMsg))).length = 2 ∧
    (((chat envC3x 2 st0 "q").2).trace.filter
        (fun e => decide (e = Event.interruptInvoked))).length = 2 := by
  decide

/-- Claim C3, amended: each interrupt() invocation appends exactly one
    interruption turn and sets the flag (so one invocation per run yields
    exactly one turn); once the flag is set the rest of the loop issues no
    backend call, no tool execution and no approval request (only the
    max-iterations record and further interrupt records can still appear);
    and chat resets the flag at the start of the next user turn. -/
theorem interruption_behavior :
    (∀ c : Cfg,
      (doInterrupt c).st.messages = c.st.messages ++ [interruptionMsg] ∧
      (doInterrupt c).st.isInterrupted = true) ∧
    (∀ (env : Env) (fuel it : Nat) (c : Cfg), c.st.isInterrupted = true →
      ∃ t, ((chatLoop env fuel it c).2).trace = c.trace ++ t ∧
        ∀ e ∈ t, e = Event.maxIterCb maxIterations ∨
          e = Event.interruptInvoked) ∧
    (∀ (env : Env) (fuel : Nat) (s : AgentState) (input : String),
      chat env fuel s input =
        chat env fuel { s with isInterrupted := false } input) :=
  ⟨fun c => ⟨rfl, rfl⟩,
   fun env fuel it c h => chatLoop_interrupted env fuel it c h,
   fun env fuel s input => rfl⟩

/-- Witness for the amended claim C3 at a concrete interrupted state. -/
theorem interruption_witness :
    ∃ t, ((chatLoop envBase 1 0 cfgInt).2).trace = cfgInt.trace ++ t ∧
      ∀ e ∈ t, e = Event.maxIterCb maxIterations ∨
        e = Event.interruptInvoked :=
  interruption_behavior.2.1 envBase 1 0 cfgInt rfl

/-- Claim C4, counterexample: the claim quantifies over all file-mutating
    tools, but the engine checks the read-before-edit precondition only
    for edit_file. A create_file call on a never-read path is not rejected:
    it goes through the approval gate and executes with success. -/
theorem read_before_edit_counterexample :
    ((executeToolCall envC4x cfgR tcC).1).success = true ∧
    Event.approvalRequest "create_file" ∈ ((executeToolCall envC4x cfgR tcC).2).trace ∧
    Event.toolExec "create_file" ∈ ((executeToolCall envC4x cfgR tcC).2).trace := by
  decide

/-- Claim C4, amended: for an edit_file call carrying a nonempty
    file_path, when the read tracker is enabled and the resolved path was
    never read, the call is rejected with the structured precondition
    error (success = false), and the whole handling consists of the
    tool-start and tool-end notifications only — no approval check,
    approval request, tool execution or state change happens. -/
theorem read_before_edit_blocks :
    ∀ (env : Env) (c : Cfg) (tc : ToolCallReq) (args : ToolArgs)
      (fp : String) (rf : List String),
    stripRepo tc.name = "edit_file" →
    env.parseArgs tc.arguments = some args →
    args.file_path = some fp →
    (fp == "") = false →
    c.st.readFiles = some rf →
    rf.contains (env.resolvePath fp) = false →
    executeToolCall env c tc =
      (editRejectResult fp,
       addEvent (Event.toolEnd "edit_file" (editRejectResult fp))
         (addEvent (Event.toolStart "edit_file") c)) ∧
    (editRejectResult fp).success = false := by
  intro env c tc args fp rf hstrip hparse hfp hfpne hrf hcont
  refine ⟨?_, rfl⟩
  simp only [executeToolCall, hstrip, hparse, hfp, hfpne,
    validateReadBeforeEdit, addEvent, hrf, hcont]
  simp

/-- Witness for the amended claim C4 at a concrete blocked edit. -/
theorem read_before_edit_witness :
    executeToolCall envC4w cfgR tcE =
      (editRejectResult "a.txt",
       addEvent (Event.toolEnd "edit_file" (editRejectResult "a.txt"))
         (addEvent (Event.toolStart "edit_file") cfgR)) ∧
    (editRejectResult "a.txt").success = false :=
  read_before_edit_blocks envC4w cfgR tcE { file_path := some "a.txt" }
    "a.txt" [] (by decide) rfl rfl (by decide) rfl (by decide)

/-- Claim C5: a dangerous-classified tool never changes the session
    auto-approve flag (so autoApproveSession = true on a dangerous call
    does not enable it), and its body can only execute when an approval
    callback is wired, was consulted, and answered approved — the session
    flag can never bypass the gate for the dangerous class. -/
theorem dangerous_tool_always_gated :
    ∀ (env : Env) (c : Cfg) (tc : ToolCallReq) (r : ToolResult) (c' : Cfg),
    executeToolCall env c tc = (r, c') →
    env.dangerousTools.contains (stripRepo tc.name) = true →
    c'.st.sessionAutoApprove = c.st.sessionAutoApprove ∧
    (Event.toolExec (stripRepo tc.name) ∉ c.trace →
     Event.toolExec (stripRepo tc.name) ∈ c'.trace →
     env.hasApprovalCb = true ∧
     (env.approval c.apprIdx).approved = true ∧
     Event.approvalRequest (stripRepo tc.name) ∈ c'.trace) := by
  intro env c tc r c' hexec hd
  simp only [executeToolCall] at hexec
  split at hexec
  · injection hexec with h1 h2
    subst h2
    exact ⟨rfl, fun hn hm => absurd hm hn⟩
  · rename_i args hargs
    split at hexec
    · rename_i fp hbad
      injection hexec with h1 h2
      subst h2
      refine ⟨rfl, ?_⟩
      intro hn hm
      simp [addEvent, hn] at hm
    · have h := toolGateAndRun_dangerous env
        (addEvent (Event.toolStart (stripRepo tc.name)) c)
        (stripRepo tc.name) r c' hexec hd
      refine ⟨h.1, ?_⟩
      intro hn hm
      have hn2 : Event.toolExec (stripRepo tc.name) ∉
          (addEvent (Event.toolStart (stripRepo tc.name)) c).trace := by
        simp [addEvent, hn]
      exact h.2 hn2 hm

/-- Witness for claim C5 at a concrete approved dangerous call. -/
theorem dangerous_tool_witness :
    ((executeToolCall envC5w cfg0 tcA).2).st.sessionAutoApprove =
      cfg0.st.sessionAutoApprove ∧
    (envC5w.hasApprovalCb = true ∧
     (envC5w.approval cfg0.apprIdx).approved = true ∧
     Event.approvalRequest (stripRepo tcA.name) ∈
       ((executeToolCall envC5w cfg0 tcA).2).trace) := by
  have h := dangerous_tool_always_gated envC5w cfg0 tcA
    (executeToolCall envC5w cfg0 tcA).1 (executeToolCall envC5w cfg0 tcA).2
    rfl (by decide)
  exact ⟨h.1, h.2 (by decide) (by decide)⟩

/-- Claim C6: a backend error classified as an authentication failure
    (and not as an abort) makes the loop throw the fatal guidance message
    immediately: the returned configuration is exactly the one right after
    the failed backend call, so the retry callback is never consulted and
    no further backend call occurs; the delta past that call holds only
    interrupt records. -/
theorem auth_error_fatal_no_retry :
    ∀ (env : Env) (fuel it : Nat) (c : Cfg) (e : ErrVal),
    it < maxIterations → c.st.isInterrupted = false →
    env.backend c.backendIdx = BackendOutcome.failure e →
    isAbortError e = false → isAuthError e = true →
    chatLoop env (fuel + 1) it c =
      (ChatExit.threw
        (authThrowMsg e ((afterBackend env c).st.currentProviderType)),
       afterBackend env c) ∧
    ∃ t, (afterBackend env c).trace = c.trace ++ (Event.backendCall :: t) ∧
      ∀ x ∈ t, x = Event.interruptInvoked := by
  intro env fuel it c e hlt hI hb hab hauth
  constructor
  · simp only [chatLoop, hlt, if_true, hI, Bool.false_eq_true, if_false,
      hb, hab, hauth]
  · rw [afterBackend_eq]
    refine ⟨List.replicate (env.interruptsAt c.awaitIdx) Event.interruptInvoked,
      by simp, ?_⟩
    intro x hx
    exact List.eq_of_mem_replicate hx

/-- Witness for claim C6 at a concrete authentication failure. -/
theorem auth_error_witness :
    chatLoop envC6w 2 0 cfg0 =
      (ChatExit.threw
        (authThrowMsg errAuth ((afterBackend envC6w cfg0).st.currentProviderType)),
       afterBackend envC6w cfg0) ∧
    ∃ t, (afterBackend envC6w cfg0).trace =
        cfg0.trace ++ (Event.backendCall :: t) ∧
      ∀ x ∈ t, x = Event.interruptInvoked :=
  auth_error_fatal_no_retry envC6w 1 0 cfg0 errAuth (by decide) rfl rfl
    (by decide) (by decide)

/-- Claim C7, counterexample: the claim says a failed switch never leaves
    the session without a usable backend. When the new provider, the groq
    fallback and the rollback re-initialization all fail, the switch
    propagates an error but the session is left with no provider. -/
theorem switch_rollback_counterexample :
    ((switchProvider envPF sPrev "anthropic" (some "claude-3")).1).isSome = true ∧
    ((switchProvider envPF sPrev "anthropic" (some "claude-3")).2).provider =
      none := by
  decide

/-- Claim C7, amended: every failed switch restores the previous backend
    identifier and model and propagates the error; the session retains a
    usable backend provided re-initializing the previous backend during
    rollback succeeds. -/
theorem switch_rollback_behavior :
    ∀ (env : ProviderEnv) (s : ProvState) (pt : String) (mo : Option String)
      (err : String) (s2 : ProvState),
    switchProvider env s pt mo = (some err, s2) →
    s2.currentProviderType = s.currentProviderType ∧ s2.model = s.model ∧
    ((∀ i, env.initOk i s.currentProviderType = true) →
      s2.provider = some s.currentProviderType) := by
  intro env s pt mo err s2 h
  simp only [switchProvider] at h
  split at h
  · exact absurd (congrArg Prod.fst h) (by simp)
  · rename_i s4 idx heq
    split at h
    · injection h with h1 h2
      subst h2
      exact ⟨rfl, rfl, fun _ => rfl⟩
    · rename_i hfail
      injection h with h1 h2
      subst h2
      refine ⟨rfl, rfl, fun hall => ?_⟩
      exact absurd (hall idx) (by simp [hfail])

/-- Witness for the amended claim C7: switch to a provider whose
    initialization fails while the previous provider re-initializes. -/
theorem switch_rollback_witness :
    ((switchProvider envPF2 sPrev "anthropic" (some "claude-3")).2).currentProviderType =
      sPrev.currentProviderType ∧
    ((switchProvider envPF2 sPrev "anthropic" (some "claude-3")).2).model =
      sPrev.model ∧
    ((switchProvider envPF2 sPrev "anthropic" (some "claude-3")).2).provider =
      some sPrev.currentProviderType := by
  have h := switch_rollback_behavior envPF2 sPrev "anthropic" (some "claude-3")
    "switch failed" (switchProvider envPF2 sPrev "anthropic" (some "claude-3")).2
    rfl
  exact ⟨h.1, h.2.1, h.2.2 (fun i => rfl)⟩

/-- Claim C8: when the loop counter reaches the bound (50) and the
    max-iterations callback is wired, the callback is invoked with that
    bound; if it answers continue the counter is reset to 0 and the loop
    resumes from the post-callback configuration; otherwise the run ends
    there, the delta holds only the callback record and interrupt records,
    and in particular no final-message callback fires. -/
theorem max_iterations_escalation :
    ∀ (env : Env) (fuel it : Nat) (c : Cfg),
    env.hasMaxIterCb = true → maxIterations ≤ it →
    (env.maxIterAnswer c.maxIdx = true →
      chatLoop env (fuel + 1) it c =
        chatLoop env fuel 0
          { maxIterStep env c with maxIdx := (maxIterStep env c).maxIdx + 1 }) ∧
    (env.maxIterAnswer c.maxIdx = false →
      chatLoop env (fuel + 1) it c =
        (ChatExit.done,
         { maxIterStep env c with maxIdx := (maxIterStep env c).maxIdx + 1 }) ∧
      ∃ t, ({ maxIterStep env c with
            maxIdx := (maxIterStep env c).maxIdx + 1 } : Cfg).trace =
          c.trace ++ (Event.maxIterCb maxIterations :: t) ∧
        (∀ x ∈ t, x = Event.interruptInvoked) ∧
        (∀ (s : String) (rs : Option String), Event.finalMessage s rs ∉ t)) := by
  intro env fuel it c hcb hle
  have hnlt : ¬ it < maxIterations := Nat.not_lt.mpr hle
  have hidx : (maxIterStep env c).maxIdx = c.maxIdx := by rw [maxIterStep_eq]
  constructor
  · intro ha
    simp only [chatLoop, if_neg hnlt, hcb, if_true, hidx, ha]
  · intro ha
    refine ⟨?_, ?_⟩
    · simp only [chatLoop, if_neg hnlt, hcb, if_true, hidx, ha,
        Bool.false_eq_true, if_false]
    · refine ⟨List.replicate (env.interruptsAt c.awaitIdx) Event.interruptInvoked,
        ?_, ?_, ?_⟩
      · show (maxIterStep env c).trace = _
        rw [maxIterStep_eq]
        simp
      · intro x hx
        exact List.eq_of_mem_replicate hx
      · intro s rs hmem
        have := List.eq_of_mem_replicate hmem
        simp at this

/-- Witness for claim C8 at the bound with a callback answering stop. -/
theorem max_iterations_witness :
    chatLoop envBase 3 50 cfg0 =
      (ChatExit.done,
       { maxIterStep envBase cfg0 with
         maxIdx := (maxIterStep envBase cfg0).maxIdx + 1 }) ∧
    ∃ t, ({ maxIterStep envBase cfg0 with
          maxIdx := (maxIterStep envBase cfg0).maxIdx + 1 } : Cfg).trace =
        cfg0.trace ++ (Event.maxIterCb maxIterations :: t) ∧
      (∀ x ∈ t, x = Event.interruptInvoked) ∧
      (∀ (s : String) (rs : Option String), Event.finalMessage s rs ∉ t) :=
  (max_iterations_escalation envBase 2 50 cfg0 rfl (by decide)).2 rfl

/-- Claim C9: clearHistory keeps exactly the system turns in order and is
    idempotent, and after any sequence of exposed operations from
    construction the log still starts with a system turn (hence holds at
    least one system turn). -/
theorem clear_history_properties :
    (∀ s : AgentState, clearHistory (clearHistory s) = clearHistory s) ∧
    (∀ s : AgentState, (clearHistory s).messages =
      s.messages.filter (fun m => m.role == Role.system)) ∧
    (∀ (sysMsg : String) (ctx : Option String) (ops : List AgentOp),
      headIsSystem (applyOps (initState sysMsg ctx) ops)) := by
  refine ⟨?_, fun s => rfl, ?_⟩
  · intro s
    simp [clearHistory, List.filter_filter]
  · intro sysMsg ctx ops
    exact headIsSystem_applyOps _ (headIsSystem_init sysMsg ctx) ops

/-- Claim C10, counterexample: the claim says a call named with the
    prefix is handled identically to the call named by the remainder. For
    a doubly prefixed name only one copy is stripped, so the two calls are
    handled differently (the tool-start notification and dispatch use
    different names). -/
theorem repo_prefix_counterexample :
    executeToolCall envBase cfg0
      { id := "c", name := "repo_browser.repo_browser.edit_file",
        arguments := "a" } ≠
    executeToolCall envBase cfg0
      { id := "c", name := "repo_browser.edit_file", arguments := "a" } := by
  decide

/-- Claim C10, amended: when the remainder does not itself start with the
    repo_browser. prefix, a call named with the prefix is handled exactly
    like the call named by the remainder: the prefix is stripped before
    argument parsing, the read-before-edit check, classification and
    execution, and the whole handling coincides. -/
theorem repo_prefix_strip_equiv :
    ∀ (env : Env) (c : Cfg) (cid args name : String),
    preChars repoChars name.data = false →
    executeToolCall env c
      { id := cid, name := "repo_browser." ++ name, arguments := args } =
    executeToolCall env c { id := cid, name := name, arguments := args } := by
  intro env c cid args name h
  simp only [executeToolCall, stripRepo_prefixed, stripRepo_plain name h]

/-- Witness for the amended claim C10 at a concrete singly prefixed call. -/
theorem repo_prefix_witness :
    executeToolCall envBase cfg0
      { id := "w", name := "repo_browser." ++ "read_file", arguments := "a" } =
    executeToolCall envBase cfg0
      { id := "w", name := "read_file", arguments := "a" } :=
  repo_prefix_strip_equiv envBase cfg0 "w" "a" "read_file" (by decide)

end ExaAgent
